import Mathlib

/-
Shallow embedding of the LastTick trading bot core (TypeScript sources):
the market scanner, opportunity detector, order executor and
position manager / risk gate. Numeric values are modelled as rationals,
timestamps as integers (epoch milliseconds), JS Map objects as
association lists preserving insertion order.
-/

/-! ## Configuration (src/config.ts) -/

structure Config where
  minProfitThreshold : ℚ
  maxPositionSize : ℚ
  maxTotalExposure : ℚ
  defaultOrderSize : ℚ
  minCertaintyPrice : ℚ
  maxBuyPrice : ℚ
  dailyLossLimit : ℚ
  maxPositionsPerMarket : ℕ
deriving Repr, DecidableEq

/-- Default configuration values from src/config.ts:
minProfitThreshold 0.005, maxPositionSize 500, maxTotalExposure 5000,
defaultOrderSize 100, minCertaintyPrice 0.98, maxBuyPrice 0.995,
dailyLossLimit 500, maxPositionsPerMarket 1. -/
def defaultConfig : Config :=
  { minProfitThreshold := 1/200
    maxPositionSize := 500
    maxTotalExposure := 5000
    defaultOrderSize := 100
    minCertaintyPrice := 49/50
    maxBuyPrice := 199/200
    dailyLossLimit := 500
    maxPositionsPerMarket := 1 }

/-! ## Data model (src/types/index.ts) -/

inductive PositionStatus where
  | OPEN
  | PENDING_RESOLUTION
  | RESOLVED_WIN
  | RESOLVED_LOSS
deriving Repr, DecidableEq, BEq

inductive TradeStatus where
  | PENDING
  | MATCHED
  | CONFIRMED
  | FAILED
deriving Repr, DecidableEq, BEq

structure Token where
  tokenId : String
  outcome : String
  price : ℚ
deriving Repr, DecidableEq

structure Market where
  id : String
  question : String
  endDate : ℤ
  active : Bool
  closed : Bool
  archived : Bool
  tokens : List Token
deriving Repr, DecidableEq

structure WatchedMarket extends Market where
  addedAt : ℤ
  highPriceToken : Option Token
deriving Repr, DecidableEq

structure OrderLevel where
  price : ℚ
  size : ℚ
deriving Repr, DecidableEq

structure OrderBook where
  bids : List OrderLevel
  asks : List OrderLevel
  minOrderSize : ℚ
  tickSize : ℚ
deriving Repr, DecidableEq

structure Opportunity where
  marketId : String
  tokenId : String
  outcome : String
  currentPrice : ℚ
  expectedProfit : ℚ
  confidence : ℚ
  timestamp : ℤ
deriving Repr, DecidableEq

structure Trade where
  id : String
  marketId : String
  tokenId : String
  side : String
  price : ℚ
  size : ℚ
  timestamp : ℤ
  status : TradeStatus
deriving Repr, DecidableEq

structure Position where
  id : String
  marketId : String
  tokenId : String
  outcome : String
  entryPrice : ℚ
  size : ℚ
  timestamp : ℤ
  status : PositionStatus
deriving Repr, DecidableEq

structure TradingStats where
  totalTrades : ℕ
  winningTrades : ℕ
  losingTrades : ℕ
  totalProfit : ℚ
  totalLoss : ℚ
  winRate : ℚ
  averageProfit : ℚ
  largestWin : ℚ
  largestLoss : ℚ
deriving Repr, DecidableEq

/-! ## OrderExecutor (src/core/executor.ts) -/

/-- Rounding step of calculateOrderSize: floor of the size to cent
precision, from the source line floor of orderSize times 100, over 100. -/
def floorCents (x : ℚ) : ℚ := (⌊x * 100⌋ : ℚ) / 100

/-- OrderExecutor.calculateOrderSize: start from the default order size,
scale by the profit multiplier capped at 2 only when the multiplier
exceeds 1, cap at the maximum position size, then round down to cents. -/
def calculateOrderSize (cfg : Config) (opp : Opportunity) : ℚ :=
  let orderSize := cfg.defaultOrderSize
  let profitMultiplier := opp.expectedProfit / cfg.minProfitThreshold
  let orderSize :=
    if profitMultiplier > 1 then orderSize * min profitMultiplier 2 else orderSize
  let orderSize := min orderSize cfg.maxPositionSize
  floorCents orderSize

/-- OrderExecutor.executeOpportunity. The venue submission is external:
its synchronous outcome is passed in as orderSuccess, the generated trade
id and current time as parameters. Returns none when execution is
disabled, when the CLOB client is not authenticated for trading, or when
the computed order size is not positive; otherwise returns the Trade with
status MATCHED on success and FAILED on failure. -/
def executeOpportunity (cfg : Config) (isEnabled authenticated : Bool)
    (opp : Opportunity) (tradeId : String) (now : ℤ) (orderSuccess : Bool) :
    Option Trade :=
  if !isEnabled then none
  else if !authenticated then none
  else
    let orderSize := calculateOrderSize cfg opp
    if orderSize ≤ 0 then none
    else
      some { id := tradeId
             marketId := opp.marketId
             tokenId := opp.tokenId
             side := "BUY"
             price := opp.currentPrice
             size := orderSize
             timestamp := now
             status := if orderSuccess then TradeStatus.MATCHED else TradeStatus.FAILED }

/-- OrderExecutor.processQueue: drain the FIFO queue; each dequeued
opportunity is paired with the clock value observed at its dequeue. An
opportunity whose age at dequeue exceeds 5000 milliseconds is discarded
without an execution call; the others are executed in order. Returns the
list of opportunities actually passed to executeOpportunity. -/
def processQueue : List (ℤ × Opportunity) → List Opportunity
  | [] => []
  | (now, opp) :: rest =>
      if now - opp.timestamp > 5000 then processQueue rest
      else opp :: processQueue rest

/-- Order size as §4.4 of the spec literally states it: the multiplier
min(2, expectedProfit over minProfitThreshold) is applied for every value
of the ratio, including ratios below 1. Stated for comparison with
calculateOrderSize, which it does not match when the ratio is below 1. -/
def calculateOrderSizeSpec (cfg : Config) (opp : Opportunity) : ℚ :=
  floorCents (min cfg.maxPositionSize
    (cfg.defaultOrderSize * min 2 (opp.expectedProfit / cfg.minProfitThreshold)))

/-! ## PositionManager (core/position-manager.ts) -/

/-- Events emitted by the PositionManager. -/
inductive PMEvent where
  | position_opened (p : Position)
  | position_resolved (p : Position) (pnl : ℚ)
deriving Repr, DecidableEq

/-- State of the PositionManager: the positions map (modelled as an
association list in insertion order, as a JS Map iterates), the running
trading statistics, the daily realized profit and loss, and the calendar
day it belongs to. -/
structure PMState where
  positions : List (String × Position)
  stats : TradingStats
  dailyPnL : ℚ
  dailyStartDate : String
deriving Repr, DecidableEq

/-- Lookup in the positions map, as Map.get. -/
def lookupEntry : List (String × Position) → String → Option Position
  | [], _ => none
  | p :: rest, k => if p.1 == k then some p.2 else lookupEntry rest k

/-- Map.set on the positions map: replace the value when the key is
present, append otherwise. -/
def setEntry (l : List (String × Position)) (k : String) (v : Position) :
    List (String × Position) :=
  if l.any (fun p => p.1 == k) then
    l.map (fun p => if p.1 == k then (k, v) else p)
  else l ++ [(k, v)]

/-- PositionManager.checkDailyReset: the first time the manager is
touched on a new calendar day, the daily profit and loss counter resets
to zero. -/
def checkDailyReset (today : String) (st : PMState) : PMState :=
  if today != st.dailyStartDate then
    { st with dailyPnL := 0, dailyStartDate := today }
  else st

/-- PositionManager.addPosition: after the daily reset check, convert the
trade into an OPEN position keyed by the trade id (outcome left empty),
store it and increment the total trade counter. Returns the new state,
the created position and the emitted position_opened event. -/
def addPosition (today : String) (st : PMState) (trade : Trade) :
    PMState × Position × List PMEvent :=
  let st := checkDailyReset today st
  let position : Position :=
    { id := trade.id
      marketId := trade.marketId
      tokenId := trade.tokenId
      outcome := ""
      entryPrice := trade.price
      size := trade.size
      timestamp := trade.timestamp
      status := PositionStatus.OPEN }
  ({ st with
      positions := setEntry st.positions position.id position
      stats := { st.stats with totalTrades := st.stats.totalTrades + 1 } },
   position,
   [PMEvent.position_opened position])

/-- PositionManager.resolvePosition: when the position id is unknown the
call is a no-op returning the state unchanged and emitting nothing.
Otherwise compute pnl as payout minus cost (payout is the size for a
winner, zero for a loser), transition the status, update the win or loss
aggregates, the daily profit and loss, the win rate (a percentage) and
the average profit, and emit position_resolved. The resolvedPrice
parameter is accepted but unused, as in the source. -/
def resolvePosition (st : PMState) (positionId : String)
    (resolvedPrice : ℚ) (isWinner : Bool) : PMState × List PMEvent :=
  match lookupEntry st.positions positionId with
  | none => (st, [])
  | some position =>
    let cost := position.entryPrice * position.size
    let payout : ℚ := if isWinner then position.size else 0
    let pnl := payout - cost
    let position :=
      { position with
          status := if isWinner then PositionStatus.RESOLVED_WIN
                    else PositionStatus.RESOLVED_LOSS }
    let stats := st.stats
    let stats :=
      if isWinner then
        { stats with
            winningTrades := stats.winningTrades + 1
            totalProfit := stats.totalProfit + pnl
            largestWin := if pnl > stats.largestWin then pnl else stats.largestWin }
      else
        { stats with
            losingTrades := stats.losingTrades + 1
            totalLoss := stats.totalLoss + |pnl|
            largestLoss := if |pnl| > stats.largestLoss then |pnl| else stats.largestLoss }
    let dailyPnL := st.dailyPnL + pnl
    let totalResolved := stats.winningTrades + stats.losingTrades
    let stats :=
      { stats with
          winRate := if totalResolved > 0 then
              ((stats.winningTrades : ℚ) / (totalResolved : ℚ)) * 100 else 0
          averageProfit := if totalResolved > 0 then
              (stats.totalProfit - stats.totalLoss) / (totalResolved : ℚ) else 0 }
    ({ st with
        positions := setEntry st.positions positionId position
        stats := stats
        dailyPnL := dailyPnL },
     [PMEvent.position_resolved position pnl])

/-- PositionManager.getOpenPositions. -/
def getOpenPositions (st : PMState) : List Position :=
  (st.positions.map Prod.snd).filter (fun p => p.status = PositionStatus.OPEN)

/-- PositionManager.getTotalExposure: sum of entryPrice times size over
the OPEN positions. -/
def getTotalExposure (st : PMState) : ℚ :=
  (getOpenPositions st).foldl (fun sum p => sum + p.entryPrice * p.size) 0

/-- PositionManager.canOpenNewPosition: false when the projected exposure
would exceed the ceiling or the daily loss limit is already breached,
true otherwise. Reads the state only. -/
def canOpenNewPosition (cfg : Config) (st : PMState) (size price : ℚ) : Bool :=
  let newExposure := getTotalExposure st + size * price
  if newExposure > cfg.maxTotalExposure then false
  else if st.dailyPnL < -cfg.dailyLossLimit then false
  else true

/-- PositionManager.getPositionsByMarket: OPEN positions for a market. -/
def getPositionsByMarket (st : PMState) (marketId : String) : List Position :=
  (st.positions.map Prod.snd).filter
    (fun p => p.marketId == marketId && p.status = PositionStatus.OPEN)

/-! ## MarketScanner (core/market-scanner.ts) -/

/-- Map.has on the watchlist. -/
def hasKey (id : String) (w : List (String × WatchedMarket)) : Bool :=
  w.any (fun p => p.1 == id)

/-- MarketScanner.findHighPriceToken: the token with the maximum price,
starting from a zero threshold with a strict comparison, so ties keep the
first-encountered token and tokens priced at zero are never selected. -/
def findHighPriceToken (m : Market) : Option Token :=
  (m.tokens.foldl
    (fun acc t => if t.price > acc.1 then (t.price, some t) else acc)
    ((0 : ℚ), (none : Option Token))).2

/-- Eligibility predicate of MarketScanner.filterEligibleMarkets: the
market must be active, not closed, not archived; with time-to-end in
(0, 24] hours some token price must reach minCertaintyPrice; with
time-to-end beyond 24 hours some token price must reach 0.99. -/
def marketEligible (cfg : Config) (now : ℤ) (m : Market) : Bool :=
  if !m.active || m.closed || m.archived then false
  else
    let hoursUntilEnd : ℚ := ((m.endDate - now : ℤ) : ℚ) / (1000 * 60 * 60)
    if 0 < hoursUntilEnd ∧ hoursUntilEnd ≤ 24 then
      m.tokens.any (fun t => cfg.minCertaintyPrice ≤ t.price)
    else if 24 < hoursUntilEnd then
      m.tokens.any (fun t => (99/100 : ℚ) ≤ t.price)
    else false

/-- MarketScanner.filterEligibleMarkets. -/
def filterEligibleMarkets (cfg : Config) (now : ℤ) (markets : List Market) :
    List Market :=
  markets.filter (marketEligible cfg now)

/-- Addition step of MarketScanner.scan: an eligible market not already
watched is appended with a fresh addedAt and its high price token; an
already watched market is left untouched. -/
def addWatched (now : ℤ) (w : List (String × WatchedMarket)) (m : Market) :
    List (String × WatchedMarket) :=
  if hasKey m.id w then w
  else w ++ [(m.id,
    { toMarket := m, addedAt := now, highPriceToken := findHighPriceToken m })]

/-- Watchlist update performed by MarketScanner.scan on a fetched market
set: add the eligible markets not yet watched, then remove every watched
market whose id no longer appears among the eligible markets. -/
def scanUpdate (cfg : Config) (now : ℤ) (watch : List (String × WatchedMarket))
    (markets : List Market) : List (String × WatchedMarket) :=
  let eligibleMarkets := filterEligibleMarkets cfg now markets
  let afterAdd := eligibleMarkets.foldl (addWatched now) watch
  afterAdd.filter (fun p => eligibleMarkets.any (fun m => m.id == p.1))

/-- Eligibility rule as the claim states it, at the Prop level. -/
def marketEligibleSpec (cfg : Config) (now : ℤ) (m : Market) : Prop :=
  m.active = true ∧ m.closed = false ∧ m.archived = false ∧
    ((0 < ((m.endDate - now : ℤ) : ℚ) / (1000 * 60 * 60) ∧
        ((m.endDate - now : ℤ) : ℚ) / (1000 * 60 * 60) ≤ 24 ∧
        ∃ t ∈ m.tokens, cfg.minCertaintyPrice ≤ t.price) ∨
      (24 < ((m.endDate - now : ℤ) : ℚ) / (1000 * 60 * 60) ∧
        ∃ t ∈ m.tokens, (99/100 : ℚ) ≤ t.price))

/-! ## OpportunityDetector (core/opportunity-detector.ts) -/

/-- Market and outcome resolution inside analyzeOpportunity: walk the
watchlist in insertion order and return the id of the first watched
market holding a token with the given token id, with that token outcome;
both fields stay empty when no watched market holds the token. -/
def resolveMarketOutcome (watch : List (String × WatchedMarket))
    (tokenId : String) : String × String :=
  match watch with
  | [] => ("", "")
  | (id, wm) :: rest =>
    match wm.tokens.find? (fun t => t.tokenId == tokenId) with
    | some t => (id, t.outcome)
    | none => resolveMarketOutcome rest tokenId

/-- OpportunityDetector.analyzeOpportunity: with a nonempty ask side,
when the best ask price lies in the certainty window, the best ask size
reaches the book minimum order size and the expected profit
(1 - price) * min(size, maxPositionSize) reaches the profit threshold,
emit one Opportunity whose market id and outcome come from the watchlist
lookup; otherwise emit nothing. -/
def analyzeOpportunity (cfg : Config) (watch : List (String × WatchedMarket))
    (now : ℤ) (tokenId : String) (ob : OrderBook) : Option Opportunity :=
  match ob.asks with
  | [] => none
  | best :: _ =>
    if cfg.minCertaintyPrice ≤ best.price ∧ best.price ≤ cfg.maxBuyPrice ∧
        ob.minOrderSize ≤ best.size then
      let expectedProfit := (1 - best.price) * min best.size cfg.maxPositionSize
      if cfg.minProfitThreshold ≤ expectedProfit then
        let resolved := resolveMarketOutcome watch tokenId
        some { marketId := resolved.1
               tokenId := tokenId
               outcome := resolved.2
               currentPrice := best.price
               expectedProfit := expectedProfit
               confidence := best.price * 100
               timestamp := now }
      else none
    else none

/-- OpportunityDetector.handleBookUpdate: a pushed book event enters
analyzeOpportunity only when its ask side is nonempty and the best ask
price already lies in the certainty window. -/
def handleBookUpdate (cfg : Config) (watch : List (String × WatchedMarket))
    (now : ℤ) (assetId : String) (ob : OrderBook) : Option Opportunity :=
  match ob.asks with
  | [] => none
  | best :: _ =>
    if cfg.minCertaintyPrice ≤ best.price ∧ best.price ≤ cfg.maxBuyPrice then
      analyzeOpportunity cfg watch now assetId ob
    else none

/-! ## Opportunity handler wiring (src/index.ts) and reconnection
(src/services/websocket.ts) -/

/-- Opportunity handler of setupEventHandlers in src/index.ts, in trading
mode with a successful venue response: gate with canOpenNewPosition using
the configured defaultOrderSize and the opportunity price, enforce the
per-market position limit, execute the opportunity (whose size comes from
calculateOrderSize), and record MATCHED trades as positions. -/
def handleOpportunity (cfg : Config) (today : String) (now : ℤ)
    (tradeId : String) (st : PMState) (opp : Opportunity) : PMState :=
  if !(canOpenNewPosition cfg st cfg.defaultOrderSize opp.currentPrice) then st
  else if cfg.maxPositionsPerMarket ≤ (getPositionsByMarket st opp.marketId).length then st
  else
    match executeOpportunity cfg true true opp tradeId now true with
    | none => st
    | some trade =>
      if trade.status = TradeStatus.MATCHED then
        (addPosition today st trade).1
      else st

/-- Reconnect attempt bound of PolymarketWebSocket. -/
def maxReconnectAttempts : ℕ := 10

/-- Base reconnect delay of PolymarketWebSocket, in milliseconds. -/
def reconnectDelay : ℕ := 1000

/-- State of the reconnection logic: the consecutive attempt counter,
reset to zero on every successful open. -/
structure WSState where
  reconnectAttempts : ℕ
deriving Repr, DecidableEq

/-- Outcome of one PolymarketWebSocket.attemptReconnect call: either a
reconnection scheduled after the given delay, or the exhaustion signal
max_reconnect_failed with no further connection attempt. -/
inductive ReconnectAction where
  | scheduleReconnect (delayMs : ℕ)
  | maxReconnectFailed
deriving Repr, DecidableEq

/-- PolymarketWebSocket.attemptReconnect: when the counter has reached
the bound, emit the exhaustion signal and schedule nothing; otherwise
increment the counter and schedule a reconnect after
reconnectDelay * 2 ^ (attempts - 1) milliseconds. -/
def attemptReconnect (st : WSState) : WSState × ReconnectAction :=
  if maxReconnectAttempts ≤ st.reconnectAttempts then
    (st, ReconnectAction.maxReconnectFailed)
  else
    let attempts := st.reconnectAttempts + 1
    ({ reconnectAttempts := attempts },
     ReconnectAction.scheduleReconnect (reconnectDelay * 2 ^ (attempts - 1)))

/-- State after n consecutive unexpected closes starting from a freshly
connected socket (counter zero), each close running attemptReconnect. -/
def closeSeq : ℕ → WSState
  | 0 => { reconnectAttempts := 0 }
  | n + 1 => (attemptReconnect (closeSeq n)).1

/-! ## Concrete fixtures used by witnesses and counterexamples -/

/-- Zeroed trading statistics. -/
def stats0 : TradingStats :=
  { totalTrades := 0, winningTrades := 0, losingTrades := 0, totalProfit := 0,
    totalLoss := 0, winRate := 0, averageProfit := 0, largestWin := 0, largestLoss := 0 }

/-- A PositionManager state with no positions. -/
def pmEmpty : PMState :=
  { positions := [], stats := stats0, dailyPnL := 0, dailyStartDate := "2025-01-01" }

/-- A realistic detector-emitted opportunity: price 0.98, expected profit
10 (from ask size 500 at price 0.98), detected at time 0. -/
def oppQueueEx : Opportunity :=
  { marketId := "m1", tokenId := "tok1", outcome := "Yes", currentPrice := 49/50,
    expectedProfit := 10, confidence := 98, timestamp := 0 }

/-! ## Claims C7, C8, C9, C10 -/

/-- Claim C7: a queued opportunity whose detection timestamp is more than
5000 milliseconds in the past at dequeue time is discarded by the queue
worker without an execution call, while an opportunity at most 5000
milliseconds old is executed. -/
theorem claim7_staleness (now : ℤ) (opp : Opportunity)
    (rest : List (ℤ × Opportunity)) :
    (5000 < now - opp.timestamp →
      processQueue ((now, opp) :: rest) = processQueue rest) ∧
    (now - opp.timestamp ≤ 5000 →
      processQueue ((now, opp) :: rest) = opp :: processQueue rest) := by
  constructor
  · intro h
    simp only [processQueue]
    rw [if_pos h]
  · intro h
    simp only [processQueue]
    rw [if_neg (not_lt.mpr h)]

/-- Witness for claim C7: an opportunity detected at time 0 and dequeued
at 6000 is dropped, one dequeued at 5000 is executed. -/
theorem claim7_staleness_witness :
    processQueue [((6000 : ℤ), oppQueueEx)] = [] ∧
    processQueue [((5000 : ℤ), oppQueueEx)] = [oppQueueEx] := by
  constructor
  · exact ((claim7_staleness 6000 oppQueueEx []).1 (by decide)).trans rfl
  · exact ((claim7_staleness 5000 oppQueueEx []).2 (by decide)).trans rfl

/-- Claim C8: canOpenNewPosition returns false exactly when the projected
exposure (current OPEN exposure plus size times price) would exceed
maxTotalExposure or the daily realized profit and loss is already below
the negative of the daily loss limit, and returns true otherwise; it is a
pure read of the ledger state. -/
theorem claim8_canOpenNewPosition_iff (cfg : Config) (st : PMState)
    (size price : ℚ) :
    (canOpenNewPosition cfg st size price = false ↔
      (getTotalExposure st + size * price > cfg.maxTotalExposure ∨
       st.dailyPnL < -cfg.dailyLossLimit)) ∧
    (canOpenNewPosition cfg st size price = true ↔
      (getTotalExposure st + size * price ≤ cfg.maxTotalExposure ∧
       -cfg.dailyLossLimit ≤ st.dailyPnL)) := by
  unfold canOpenNewPosition
  constructor <;> split_ifs with h1 h2 <;> simp_all <;> push_neg <;>
    first
      | exact le_of_not_lt h1
      | exact ⟨le_of_not_lt h1, le_of_not_lt h2⟩
      | exact absurd h1 (not_lt.mpr (by assumption))

/-- Claim C9: for n between 1 and 10, the n-th consecutive unexpected
close schedules a reconnect after reconnectDelay * 2 ^ (n - 1)
milliseconds and leaves the attempt counter at n; the 11-th consecutive
close emits the exhaustion signal and schedules no further attempt,
leaving the state unchanged. -/
theorem claim9_backoff :
    (∀ n : ℕ, 1 ≤ n → n ≤ 10 →
      (attemptReconnect (closeSeq (n - 1))).2 =
        ReconnectAction.scheduleReconnect (reconnectDelay * 2 ^ (n - 1)) ∧
      (attemptReconnect (closeSeq (n - 1))).1.reconnectAttempts = n) ∧
    (attemptReconnect (closeSeq 10)).2 = ReconnectAction.maxReconnectFailed ∧
    (attemptReconnect (closeSeq 10)).1 = closeSeq 10 := by
  refine ⟨?_, by decide, by decide⟩
  intro n h1 h10
  interval_cases n <;> exact ⟨by decide, by decide⟩

/-- Witness for claim C9: the third consecutive close schedules a
reconnect after 4000 milliseconds. -/
theorem claim9_backoff_witness :
    (attemptReconnect (closeSeq 2)).2 = ReconnectAction.scheduleReconnect 4000 :=
  ((claim9_backoff.1 3 (by decide) (by decide)).1).trans (by decide)

/-- Claim C10: resolving a position id absent from the ledger is a no-op:
the state (positions map, statistics, daily profit and loss) is returned
unchanged and no event is emitted. -/
theorem claim10_resolve_missing_noop (st : PMState) (pid : String) (rp : ℚ)
    (w : Bool) (h : lookupEntry st.positions pid = none) :
    resolvePosition st pid rp w = (st, []) := by
  unfold resolvePosition
  rw [h]

/-- Witness for claim C10: resolving any id in the empty ledger changes
nothing and emits nothing. -/
theorem claim10_resolve_missing_noop_witness :
    resolvePosition pmEmpty "p1" 1 true = (pmEmpty, []) :=
  claim10_resolve_missing_noop pmEmpty "p1" 1 true rfl

/-! ## Claim C3 -/

/-- An opportunity whose profit ratio is 1/2 (expected profit 0.0025
against the default threshold 0.005): the source keeps the full default
order size here, the literal spec formula would halve it. -/
def oppLowRatio : Opportunity :=
  { marketId := "m1", tokenId := "tok1", outcome := "Yes",
    currentPrice := 199/200, expectedProfit := 1/400, confidence := 995/10,
    timestamp := 0 }

/-- Counterexample to claim C3: at a profit ratio of 1/2 the source
computes 100 while the claimed formula with multiplier min(2, ratio)
applied to every ratio computes 50. -/
theorem claim3_sizing_counterexample :
    calculateOrderSize defaultConfig oppLowRatio = 100 ∧
    calculateOrderSizeSpec defaultConfig oppLowRatio = 50 ∧
    calculateOrderSize defaultConfig oppLowRatio ≠
      calculateOrderSizeSpec defaultConfig oppLowRatio := by
  refine ⟨?_, ?_, ?_⟩ <;>
    norm_num [calculateOrderSize, calculateOrderSizeSpec, floorCents,
      oppLowRatio, defaultConfig, min_def, max_def]

/-- Claim C3 as amended: the order size is
min(maxPositionSize, defaultOrderSize * min(2, max(1, ratio))) rounded
down to cent precision, so the profit multiplier only scales the size up
when the ratio exceeds 1 and a ratio below 1 keeps the default size;
executeOpportunity returns no Trade when the venue link is
unauthenticated or the computed size is not positive. Stated for a
positive profit threshold, matching the modelled real-valued division. -/
theorem claim3_sizing_amended (cfg : Config) (opp : Opportunity)
    (hpt : 0 < cfg.minProfitThreshold) :
    calculateOrderSize cfg opp =
      floorCents (min cfg.maxPositionSize
        (cfg.defaultOrderSize *
          min 2 (max 1 (opp.expectedProfit / cfg.minProfitThreshold)))) ∧
    (∀ en : Bool, ∀ tradeId : String, ∀ now : ℤ, ∀ ok : Bool,
      executeOpportunity cfg en false opp tradeId now ok = none) ∧
    (∀ en au : Bool, ∀ tradeId : String, ∀ now : ℤ, ∀ ok : Bool,
      calculateOrderSize cfg opp ≤ 0 →
      executeOpportunity cfg en au opp tradeId now ok = none) := by
  refine ⟨?_, ?_, ?_⟩
  · unfold calculateOrderSize
    dsimp only
    rcases le_or_lt (opp.expectedProfit / cfg.minProfitThreshold) 1 with h | h
    · rw [if_neg (not_lt.mpr h), max_eq_left h]
      norm_num [min_comm]
    · rw [if_pos h, max_eq_right h.le, min_comm,
        min_comm (opp.expectedProfit / cfg.minProfitThreshold) 2]
  · intro en tradeId now ok
    cases en <;> simp [executeOpportunity]
  · intro en au tradeId now ok h
    cases en <;> cases au <;> simp [executeOpportunity, h]

/-- Witness for claim C3 as amended: with the default configuration and
an expected profit of 10 the ratio caps at 2 and the size is 200; an
unauthenticated link yields no Trade. -/
theorem claim3_sizing_amended_witness :
    (0 : ℚ) < defaultConfig.minProfitThreshold ∧
    calculateOrderSize defaultConfig oppQueueEx = 200 ∧
    executeOpportunity defaultConfig true false oppQueueEx "t1" 0 true = none := by
  refine ⟨by norm_num [defaultConfig], ?_, ?_⟩
  · exact ((claim3_sizing_amended defaultConfig oppQueueEx
      (by norm_num [defaultConfig])).1).trans
      (by norm_num [floorCents, oppQueueEx, defaultConfig, min_def, max_def])
  · exact (claim3_sizing_amended defaultConfig oppQueueEx
      (by norm_num [defaultConfig])).2.1 true "t1" 0 true

/-! ## Claim C4 -/

/-- An open position bought at 0.98 with size 100, as in the spec
resolution example. -/
def pos98 : Position :=
  { id := "p1", marketId := "m1", tokenId := "tok1", outcome := "Yes",
    entryPrice := 49/50, size := 100, timestamp := 0,
    status := PositionStatus.OPEN }

/-- A ledger holding only pos98, with zeroed statistics. -/
def st98 : PMState :=
  { positions := [("p1", pos98)], stats := stats0, dailyPnL := 0,
    dailyStartDate := "2025-01-01" }

/-- Counterexample to claim C4: after resolving a first winning position
the stored win rate is 100, not winningTrades / (winningTrades +
losingTrades) = 1, because the source stores the rate as a percentage. -/
theorem claim4_resolution_counterexample :
    (resolvePosition st98 "p1" 1 true).1.stats.winningTrades = 1 ∧
    (resolvePosition st98 "p1" 1 true).1.stats.losingTrades = 0 ∧
    (resolvePosition st98 "p1" 1 true).1.stats.winRate = 100 ∧
    (resolvePosition st98 "p1" 1 true).1.stats.winRate ≠
      ((resolvePosition st98 "p1" 1 true).1.stats.winningTrades : ℚ) /
        (((resolvePosition st98 "p1" 1 true).1.stats.winningTrades : ℚ) +
          ((resolvePosition st98 "p1" 1 true).1.stats.losingTrades : ℚ)) := by
  norm_num [resolvePosition, lookupEntry, setEntry, st98, stats0, pos98]

/-- Claim C4 as amended: resolvePosition computes
pnl = (isWinner then size else 0) - entryPrice * size, transitions the
status to RESOLVED_WIN or RESOLVED_LOSS, and afterwards the stored
aggregates satisfy win rate = 100 * winningTrades / (winningTrades +
losingTrades) (a percentage) and average profit =
(totalProfit - totalLoss) / (winningTrades + losingTrades); on a win the
winning counter increments and totalProfit grows by the pnl. -/
theorem claim4_resolution_amended (st : PMState) (pid : String) (rp : ℚ)
    (w : Bool) (p : Position) (h : lookupEntry st.positions pid = some p) :
    (resolvePosition st pid rp w).2 =
      [PMEvent.position_resolved
        { p with status := if w then PositionStatus.RESOLVED_WIN
                           else PositionStatus.RESOLVED_LOSS }
        ((if w then p.size else 0) - p.entryPrice * p.size)] ∧
    (w = true →
      (resolvePosition st pid rp w).1.stats.winningTrades =
        st.stats.winningTrades + 1 ∧
      (resolvePosition st pid rp w).1.stats.totalProfit =
        st.stats.totalProfit + (p.size - p.entryPrice * p.size)) ∧
    (resolvePosition st pid rp w).1.stats.winRate =
      100 * ((resolvePosition st pid rp w).1.stats.winningTrades : ℚ) /
        (((resolvePosition st pid rp w).1.stats.winningTrades : ℚ) +
          ((resolvePosition st pid rp w).1.stats.losingTrades : ℚ)) ∧
    (resolvePosition st pid rp w).1.stats.averageProfit =
      ((resolvePosition st pid rp w).1.stats.totalProfit -
        (resolvePosition st pid rp w).1.stats.totalLoss) /
        (((resolvePosition st pid rp w).1.stats.winningTrades : ℚ) +
          ((resolvePosition st pid rp w).1.stats.losingTrades : ℚ)) := by
  unfold resolvePosition
  rw [h]
  cases w <;>
    refine ⟨?_, ?_, ?_, ?_⟩ <;>
    simp only [Bool.false_eq_true, if_false, if_true, false_implies, true_implies,
      reduceIte] <;>
    first
      | rfl
      | exact ⟨trivial, trivial⟩
      | exact ⟨rfl, by push_cast; ring⟩
      | (rw [if_pos (by omega)]; push_cast; ring)

/-- Witness for claim C4 as amended: entryPrice 0.98, size 100, a win:
pnl = 2, totalProfit increases by 2, winningTrades increments. -/
theorem claim4_resolution_amended_witness :
    (resolvePosition st98 "p1" 1 true).2 =
      [PMEvent.position_resolved
        { pos98 with status := PositionStatus.RESOLVED_WIN } 2] ∧
    (resolvePosition st98 "p1" 1 true).1.stats.totalProfit =
      st98.stats.totalProfit + 2 ∧
    (resolvePosition st98 "p1" 1 true).1.stats.winningTrades =
      st98.stats.winningTrades + 1 := by
  have h := claim4_resolution_amended st98 "p1" 1 true pos98
    (by simp [st98, lookupEntry])
  refine ⟨h.1.trans (by norm_num [pos98]), ?_, (h.2.1 rfl).1⟩
  exact ((h.2.1 rfl).2).trans (by norm_num [pos98, st98, stats0])

/-! ## Claim C5 -/

/-- Claim C5: for a snapshot with a nonempty ask side, an Opportunity is
emitted if and only if the best ask price lies in
[minCertaintyPrice, maxBuyPrice], the best ask size reaches the snapshot
minimum order size, and the expected profit
(1 - askPrice) * min(askSize, maxPositionSize) reaches
minProfitThreshold. -/
theorem claim5_opportunity_rule_iff (cfg : Config)
    (watch : List (String × WatchedMarket)) (now : ℤ) (tokenId : String)
    (ob : OrderBook) (best : OrderLevel) (rest : List OrderLevel)
    (h : ob.asks = best :: rest) :
    (analyzeOpportunity cfg watch now tokenId ob).isSome = true ↔
      (cfg.minCertaintyPrice ≤ best.price ∧ best.price ≤ cfg.maxBuyPrice ∧
       ob.minOrderSize ≤ best.size ∧
       cfg.minProfitThreshold ≤
         (1 - best.price) * min best.size cfg.maxPositionSize) := by
  unfold analyzeOpportunity
  rw [h]
  dsimp only
  split_ifs with h1 h2 <;> simp_all <;> tauto

/-- Witness for claim C5: with the default configuration, a book whose
best ask is 500 shares at 0.98 with minimum order size 1 emits an
Opportunity. -/
theorem claim5_opportunity_rule_iff_witness :
    (analyzeOpportunity defaultConfig [] 0 "tok1"
      { bids := [], asks := [{ price := 49/50, size := 500 }],
        minOrderSize := 1, tickSize := 1/100 }).isSome = true :=
  (claim5_opportunity_rule_iff defaultConfig [] 0 "tok1"
      { bids := [], asks := [{ price := 49/50, size := 500 }],
        minOrderSize := 1, tickSize := 1/100 }
      { price := 49/50, size := 500 } [] rfl).mpr
    (by norm_num [defaultConfig])

/-! ## Claim C2 -/

/-- Watchlist lookup correctness of resolveMarketOutcome: when some
watched market holds a token with the given token id, the returned pair
is the id of the first such market and the outcome of its matching
token. -/
theorem resolveMarketOutcome_found (watch : List (String × WatchedMarket))
    (tokenId : String)
    (hp : ∃ p ∈ watch, ∃ t ∈ p.2.tokens, t.tokenId = tokenId) :
    ∃ p ∈ watch, ∃ t ∈ p.2.tokens, t.tokenId = tokenId ∧
      resolveMarketOutcome watch tokenId = (p.1, t.outcome) := by
  induction watch with
  | nil => simp at hp
  | cons head rest ih =>
    obtain ⟨hid, hwm⟩ := head
    cases hfind : hwm.tokens.find? (fun t => t.tokenId == tokenId) with
    | some t =>
      refine ⟨(hid, hwm), List.mem_cons_self _ _, t,
        List.mem_of_find?_eq_some hfind, ?_, ?_⟩
      · simpa using List.find?_some hfind
      · simp [resolveMarketOutcome, hfind]
    | none =>
      have hp2 : ∃ p ∈ rest, ∃ t ∈ p.2.tokens, t.tokenId = tokenId := by
        rcases hp with ⟨p, hpmem, t, ht, htid⟩
        rcases List.mem_cons.mp hpmem with rfl | hmem
        · exact absurd (by simpa using List.find?_eq_none.mp hfind t ht)
            (by simp [htid])
        · exact ⟨p, hmem, t, ht, htid⟩
      obtain ⟨p, hpmem, t, ht, htid, hres⟩ := ih hp2
      refine ⟨p, List.mem_cons_of_mem _ hpmem, t, ht, htid, ?_⟩
      simp [resolveMarketOutcome, hfind, hres]


/-- Claim C2 as amended: an emitted Opportunity carries the token id it
was analyzed for, and its marketId and outcome are resolved by looking
that token id up across the current watchlist: when the token id belongs
to some watched market they are the first such market id and its matching
token outcome; but a qualifying book for a token id absent from every
watched market still emits an Opportunity, with empty marketId and
outcome. -/
theorem claim2_opportunity_resolution_amended (cfg : Config)
    (watch : List (String × WatchedMarket)) (now : ℤ) (tokenId : String)
    (ob : OrderBook) (o : Opportunity)
    (hemit : analyzeOpportunity cfg watch now tokenId ob = some o)
    (hpresent : ∃ p ∈ watch, ∃ t ∈ p.2.tokens, t.tokenId = tokenId) :
    o.tokenId = tokenId ∧
    ∃ p ∈ watch, ∃ t ∈ p.2.tokens, t.tokenId = tokenId ∧
      o.marketId = p.1 ∧ o.outcome = t.outcome := by
  obtain ⟨p, hpmem, t, ht, htid, hres⟩ :=
    resolveMarketOutcome_found watch tokenId hpresent
  have hfields : o.tokenId = tokenId ∧
      o.marketId = (resolveMarketOutcome watch tokenId).1 ∧
      o.outcome = (resolveMarketOutcome watch tokenId).2 := by
    unfold analyzeOpportunity at hemit
    rcases hasks : ob.asks with _ | ⟨best, restAsks⟩ <;> rw [hasks] at hemit
    · simp at hemit
    · dsimp only at hemit
      split_ifs at hemit with h1 h2
      rcases Option.some.inj hemit with rfl
      exact ⟨rfl, rfl, rfl⟩
  refine ⟨hfields.1, p, hpmem, t, ht, htid, ?_, ?_⟩
  · rw [hfields.2.1, hres]
  · rw [hfields.2.2, hres]

/-- A watchlist holding one market m1 whose only token is tokA. -/
def watchTokA : List (String × WatchedMarket) :=
  [("m1", { id := "m1", question := "q", endDate := 3600000,
            active := true, closed := false, archived := false,
            tokens := [{ tokenId := "tokA", outcome := "Yes", price := 99/100 }],
            addedAt := 0,
            highPriceToken :=
              some { tokenId := "tokA", outcome := "Yes", price := 99/100 } })]

/-- A qualifying order book: best ask 500 shares at 0.98, minimum order
size 1. -/
def bookAsk98 : OrderBook :=
  { bids := [], asks := [{ price := 49/50, size := 500 }],
    minOrderSize := 1, tickSize := 1/100 }

/-- The opportunity the detector emits for tokA against bookAsk98 under
the default configuration. -/
def oppTokA : Opportunity :=
  { marketId := "m1", tokenId := "tokA", outcome := "Yes",
    currentPrice := 49/50, expectedProfit := 10, confidence := 98,
    timestamp := 0 }

/-- Witness for claim C2 as amended: with tokA watched under market m1,
the emitted opportunity resolves marketId m1 and outcome Yes from the
watchlist. -/
theorem claim2_opportunity_resolution_amended_witness :
    oppTokA.tokenId = "tokA" ∧
    ∃ p ∈ watchTokA, ∃ t ∈ p.2.tokens, t.tokenId = "tokA" ∧
      oppTokA.marketId = p.1 ∧ oppTokA.outcome = t.outcome :=
  claim2_opportunity_resolution_amended defaultConfig watchTokA 0 "tokA"
    bookAsk98 oppTokA
    (by norm_num [analyzeOpportunity, resolveMarketOutcome, List.find?,
      defaultConfig, watchTokA, bookAsk98, oppTokA])
    ⟨_, List.mem_singleton_self _, _, List.mem_singleton_self _, rfl⟩

/-- Counterexample to claim C2: a pushed book event for token tokB, which
no watched market holds, still emits an Opportunity, and its marketId and
outcome are left empty. -/
theorem claim2_opportunity_resolution_counterexample :
    (handleBookUpdate defaultConfig watchTokA 0 "tokB" bookAsk98).map
      Opportunity.marketId = some "" ∧
    (handleBookUpdate defaultConfig watchTokA 0 "tokB" bookAsk98).map
      Opportunity.outcome = some "" ∧
    (watchTokA.all
      (fun p => p.2.tokens.all (fun t => !(t.tokenId == "tokB")))) = true := by
  refine ⟨?_, ?_, by decide⟩ <;>
    norm_num [handleBookUpdate, analyzeOpportunity, resolveMarketOutcome,
      watchTokA, bookAsk98, defaultConfig, List.find?] <;> rfl

/-! ## Claim C6 -/

/-- Membership reading of hasKey. -/
theorem hasKey_iff (id : String) (w : List (String × WatchedMarket)) :
    hasKey id w = true ↔ ∃ p ∈ w, p.1 = id := by
  simp [hasKey, List.any_eq_true, beq_iff_eq]

/-- One addition step: the keys after addWatched are the previous keys
plus the id of the added market. -/
theorem hasKey_addWatched (now : ℤ) (id : String)
    (w : List (String × WatchedMarket)) (m : Market) :
    hasKey id (addWatched now w m) = (hasKey id w || (m.id == id)) := by
  unfold addWatched
  split_ifs with h
  · by_cases hbe : m.id = id
    · subst hbe
      simp [h]
    · simp [hbe]
  · simp [hasKey, List.any_append]

/-- The addition fold of scan: the keys afterwards are the previous keys
plus the ids of the folded markets. -/
theorem hasKey_foldl_addWatched (now : ℤ) (id : String) (l : List Market) :
    ∀ w, hasKey id (l.foldl (addWatched now) w) =
      (hasKey id w || l.any (fun m => m.id == id)) := by
  induction l with
  | nil => intro w; simp
  | cons m l ih =>
    intro w
    simp only [List.foldl_cons, List.any_cons]
    rw [ih, hasKey_addWatched]
    cases hasKey id w <;> cases (m.id == id) <;> simp

/-- Flag reading of the skip test in filterEligibleMarkets. -/
theorem flags_of_not_skipped (m : Market)
    (h1 : ¬((!m.active || m.closed || m.archived) = true)) :
    m.active = true ∧ m.closed = false ∧ m.archived = false := by
  simp at h1
  exact ⟨h1.1.1, h1.1.2, h1.2⟩

/-- The Bool eligibility test of the source agrees with the eligibility
rule stated at the Prop level. -/
theorem marketEligible_iff (cfg : Config) (now : ℤ) (m : Market) :
    marketEligible cfg now m = true ↔ marketEligibleSpec cfg now m := by
  unfold marketEligible marketEligibleSpec
  dsimp only
  split_ifs with h1 h2 h3
  · simp only [Bool.false_eq_true, false_iff]
    rintro ⟨ha, hc, har, _⟩
    rw [ha, hc, har] at h1
    simp at h1
  · obtain ⟨ha, hc, har⟩ := flags_of_not_skipped m h1
    simp only [List.any_eq_true, decide_eq_true_eq]
    constructor
    · intro hany
      exact ⟨ha, hc, har, Or.inl ⟨h2.1, h2.2, hany⟩⟩
    · rintro ⟨_, _, _, hcase⟩
      rcases hcase with ⟨_, _, hex⟩ | ⟨hgt, _⟩
      · exact hex
      · exact absurd hgt (by linarith [h2.2])
  · obtain ⟨ha, hc, har⟩ := flags_of_not_skipped m h1
    simp only [List.any_eq_true, decide_eq_true_eq]
    constructor
    · intro hany
      exact ⟨ha, hc, har, Or.inr ⟨h3, hany⟩⟩
    · rintro ⟨_, _, _, hcase⟩
      rcases hcase with ⟨hpos, hle, _⟩ | ⟨_, hex⟩
      · exact absurd h3 (by linarith)
      · exact hex
  · simp only [Bool.false_eq_true, false_iff]
    rintro ⟨ha, hc, har, hcase⟩
    rcases hcase with ⟨hpos, hle, _⟩ | ⟨hgt, _⟩
    · exact h2 ⟨hpos, hle⟩
    · exact h3 hgt

/-- Claim C6: after a scan over a fetched market set, an id is in the
watchlist exactly when some fetched market with that id currently
satisfies the eligibility rule (active, not closed, not archived, and
either time-to-end in (0, 24] hours with a token at or above the
certainty threshold, or beyond 24 hours with a token at or above 0.99);
in particular every previously watched market that now fails the rule is
removed by that scan. -/
theorem claim6_watchlist_exactness (cfg : Config) (now : ℤ)
    (watch : List (String × WatchedMarket)) (markets : List Market)
    (id : String) :
    hasKey id (scanUpdate cfg now watch markets) = true ↔
      ∃ m ∈ markets, m.id = id ∧ marketEligibleSpec cfg now m := by
  unfold scanUpdate
  dsimp only
  constructor
  · intro h
    rw [hasKey_iff] at h
    obtain ⟨p, hpmem, hpid⟩ := h
    rw [List.mem_filter] at hpmem
    obtain ⟨hpafter, hppred⟩ := hpmem
    simp only [List.any_eq_true, beq_iff_eq] at hppred
    obtain ⟨m, hmE, hmid⟩ := hppred
    simp only [filterEligibleMarkets, List.mem_filter] at hmE
    exact ⟨m, hmE.1, by rw [hmid, hpid],
      (marketEligible_iff cfg now m).mp hmE.2⟩
  · rintro ⟨m, hmmem, hmid, hspec⟩
    have hmE : m ∈ filterEligibleMarkets cfg now markets := by
      simp only [filterEligibleMarkets, List.mem_filter]
      exact ⟨hmmem, (marketEligible_iff cfg now m).mpr hspec⟩
    have hkey : hasKey id
        ((filterEligibleMarkets cfg now markets).foldl (addWatched now) watch) =
          true := by
      rw [hasKey_foldl_addWatched]
      have hany : (filterEligibleMarkets cfg now markets).any
          (fun m2 => m2.id == id) = true := by
        simp only [List.any_eq_true, beq_iff_eq]
        exact ⟨m, hmE, hmid⟩
      rw [hany, Bool.or_true]
    rw [hasKey_iff] at hkey
    obtain ⟨p, hpmem, hpid⟩ := hkey
    rw [hasKey_iff]
    refine ⟨p, ?_, hpid⟩
    rw [List.mem_filter]
    refine ⟨hpmem, ?_⟩
    simp only [List.any_eq_true, beq_iff_eq]
    exact ⟨m, hmE, by rw [hmid, hpid]⟩

/-! ## Claim C1 -/

/-- A configuration identical to the default except for an exposure
ceiling of 150. -/
def cfg150 : Config := { defaultConfig with maxTotalExposure := 150 }

/-- Claim C1 exhibited failing on the code: with an exposure ceiling of
150 and an empty ledger, the gate canOpenNewPosition passes for the
checked size defaultOrderSize = 100 at price 0.98 (projected exposure
98), but the executed trade size computed by calculateOrderSize is 200
(the profit multiplier caps at 2), so after the gated addPosition the
open exposure is 196, above the ceiling. -/
theorem claim1_exposure_ceiling_breached :
    canOpenNewPosition cfg150 pmEmpty cfg150.defaultOrderSize
      oppQueueEx.currentPrice = true ∧
    calculateOrderSize cfg150 oppQueueEx = 200 ∧
    getTotalExposure
      (handleOpportunity cfg150 "2025-01-01" 0 "t1" pmEmpty oppQueueEx) = 196 ∧
    cfg150.maxTotalExposure <
      getTotalExposure
        (handleOpportunity cfg150 "2025-01-01" 0 "t1" pmEmpty oppQueueEx) := by
  refine ⟨?_, ?_, ?_, ?_⟩ <;>
    norm_num [canOpenNewPosition, getTotalExposure, getOpenPositions,
      handleOpportunity, executeOpportunity, calculateOrderSize, floorCents,
      addPosition, checkDailyReset, setEntry, getPositionsByMarket, lookupEntry,
      pmEmpty, stats0, cfg150, defaultConfig, oppQueueEx, min_def]
